import Mathlib

/-!
Verification of the agricultural analytics engine (data_manager.py, analyzer.py).

The tables are shallowly embedded as lists of typed rows; numeric columns are
rationals; a nullable column (a pandas column that may hold NaN) is an
`Option ℚ`.  Each definition below translates one function (or one step of a
function) of the source; the theorems at the end of the file settle the frozen
claims about those functions.
-/

/-- Arithmetic mean of a list of rationals (`np.mean` / `Series.mean` on a
column with no missing values); `0` stands for the NaN a mean of an empty
column would give. -/
def meanQ (l : List ℚ) : ℚ := l.sum / l.length

/-- Population variance, `ddof = 0` (the square of `np.std`).  The source
compares `|series[i] - series[i-1]| > np.std(series)`; the embedding compares
squares, which is equivalent since both sides are nonnegative. -/
def npVariance (l : List ℚ) : ℚ := (l.map (fun x => (x - meanQ l) ^ 2)).sum / l.length

/-- Sample variance, `ddof = 1` (the square of `pandas.Series.std` over the
non-null entries); `0` stands for the NaN of a series of length `≤ 1`. -/
def sampleVariance (l : List ℚ) : ℚ :=
  (l.map (fun x => (x - meanQ l) ^ 2)).sum / ((l.length : ℚ) - 1)

/-- Mean of the non-null entries of a nullable column (`Series.mean`,
`skipna = True`); `0` stands for the NaN of an all-null column. -/
def meanOfValues (l : List (Option ℚ)) : ℚ := meanQ (l.filterMap id)

/-- `pandas` column max over the non-null entries (`Series.max`,
`skipna = True`): `none` stands for the NaN of an all-null column. -/
def seriesMax (l : List ℚ) : Option ℚ :=
  match l with
  | [] => none
  | x :: xs => some (xs.foldl max x)

/-! ## Claim C1: yield resolution in `AgriculturalAnalyzer.analyze_yield_factors` -/

/-- A row of the monitoring ⋈ weather ⋈ soil join, just before the yield merge
of `analyze_yield_factors` (`ndvi` stands for the feature payload). -/
structure CombinedRow where
  parcelle_id : String
  date : Int
  ndvi : ℚ
deriving DecidableEq, Inhabited

/-- A row of `historique_rendements` as `analyze_yield_factors` selects it:
`yield_history[["parcelle_id", "date", "rendement_estime", "rendement_final"]]`. -/
structure YieldRecord where
  parcelle_id : String
  date : Int
  rendement_estime : Option ℚ
  rendement_final : Option ℚ
deriving DecidableEq, Inhabited

/-- A row of `combined_data` after the yield merge of `analyze_yield_factors`. -/
structure FusedRow where
  parcelle_id : String
  date : Int
  ndvi : ℚ
  rendement_estime : Option ℚ
  rendement_final : Option ℚ
  rendement : Option ℚ
deriving DecidableEq, Inhabited

/-- `combined_data.merge(yield_history[[...]], on=["parcelle_id", "date"],
how="left")` (analyzer.py:40-44): a left merge on the pair key; a combined row
with no matching yield row keeps null yield columns, one with several matches
is repeated per match. -/
def mergeWithYield (combined : List CombinedRow) (yh : List YieldRecord) : List FusedRow :=
  combined.flatMap (fun c =>
    let ms := yh.filter (fun y => y.parcelle_id = c.parcelle_id ∧ y.date = c.date)
    if ms.isEmpty then [⟨c.parcelle_id, c.date, c.ndvi, none, none, none⟩]
    else ms.map (fun y => ⟨c.parcelle_id, c.date, c.ndvi, y.rendement_estime, y.rendement_final, none⟩))

/-- `combined_data["rendement"] = combined_data["rendement_final"].fillna(
combined_data["rendement_estime"])` (analyzer.py:47). -/
def resolveRendement (r : FusedRow) : FusedRow :=
  { r with rendement := match r.rendement_final with
      | some v => some v
      | none => r.rendement_estime }

/-- The fused observation table of `analyze_yield_factors` (analyzer.py:40-50):
yield merge, rendement resolution, then
`combined_data.dropna(subset=["rendement"])`. -/
def fuseObservations (combined : List CombinedRow) (yh : List YieldRecord) : List FusedRow :=
  ((mergeWithYield combined yh).map resolveRendement).filter (fun r => r.rendement.isSome)

/-! ## Claim C2: the monitoring/weather join of
`AgriculturalDataManager.prepare_features` -/

/-- A row of `monitoring_cultures` (the feature payload is elided). -/
structure MonitoringRow where
  parcelle_id : String
  date : Int
  ndvi : ℚ
deriving DecidableEq, Inhabited

/-- A row of `meteo_detaillee` (`temperature` stands for the weather fields). -/
structure WeatherRow where
  date : Int
  temperature : ℚ
deriving DecidableEq, Inhabited

/-- A row of the `pd.merge_asof` output in `prepare_features`: the monitoring
row with the weather columns attached (null when the weather table is empty). -/
structure MonWeatherRow where
  parcelle_id : String
  date : Int
  ndvi : ℚ
  weather_date : Option Int
  temperature : Option ℚ
deriving DecidableEq, Inhabited

/-- Distance between two positional indices. -/
def idxDist (i j : Nat) : Nat := max i j - min i j

/-- The right-table positional index nearest to left position `i`
(`direction="nearest"`, ties resolved backward, i.e. to the smaller index). -/
def nearestRightIndex (i m : Nat) : Option Nat :=
  (List.range m).foldl (fun acc j =>
    match acc with
    | none => some j
    | some k => if idxDist i j < idxDist i k then some j else some k) none

/-- `pd.merge_asof(monitoring_data, weather_data, left_index=True,
right_index=True, direction="nearest")` (data_manager.py:43-49).  Both tables
are loaded by `read_csv` with the default `RangeIndex`, and `sort_index()` on a
`RangeIndex` is the identity, so the join key is the positional row index: each
monitoring row at position `i` receives the weather row whose position is
nearest to `i`, not the weather record whose date is nearest. -/
def mergeAsofByPosition (monitoring : List MonitoringRow) (weather : List WeatherRow) :
    List MonWeatherRow :=
  monitoring.mapIdx (fun i r =>
    match (nearestRightIndex i weather.length).bind (fun j => weather.get? j) with
    | some w => ⟨r.parcelle_id, r.date, r.ndvi, some w.date, some w.temperature⟩
    | none => ⟨r.parcelle_id, r.date, r.ndvi, none, none⟩)

/-- The weather record the claim prescribes for a monitoring row: the one whose
date is nearest to the monitoring date.  This follows the claim's words (it is
the reference the merge is compared against), not the source. -/
def nearestDateWeather (d : Int) (weather : List WeatherRow) : Option WeatherRow :=
  weather.foldl (fun acc w =>
    match acc with
    | none => some w
    | some b => if |d - w.date| < |d - b.date| then some w else some b) none

/-! ## Claims C3, C6, C8: `_enrich_with_yield_history` and
`calculate_risk_metrics` -/

/-- A row of the `prepare_features` output as `calculate_risk_metrics` and
`_enrich_with_yield_history` read it. -/
structure DataRow where
  parcelle_id : String
  ndvi : ℚ
  stress_hydrique : ℚ
  capacite_retention_eau : ℚ
deriving DecidableEq, Inhabited

/-- A row of `yield_history[["parcelle_id", "annee", "rendement"]]`
(data_manager.py:65); `rendement` is nullable
(`pd.to_numeric(..., errors="coerce")`). -/
structure YHRow where
  parcelle_id : String
  annee : Int
  rendement : Option ℚ
deriving DecidableEq, Inhabited

/-- A row of the enriched table: the `DataRow` columns, the merged `rendement`,
the `rendement_moyen` transform, and the two risk columns
`calculate_risk_metrics` assigns (absent = `none` before the call). -/
structure EnrichedRow where
  parcelle_id : String
  ndvi : ℚ
  stress_hydrique : ℚ
  capacite_retention_eau : ℚ
  rendement : Option ℚ
  rendement_moyen : Option ℚ
  risque_hydrique : Option ℚ
  risque_global : Option ℚ
deriving DecidableEq, Inhabited

/-- The projection `data[["parcelle_id", "risque_hydrique", "risque_global"]]`
returned by `calculate_risk_metrics` (data_manager.py:81). -/
structure RiskOut where
  parcelle_id : String
  risque_hydrique : Option ℚ
  risque_global : Option ℚ
deriving DecidableEq, Inhabited

/-- The enriched rows one data row produces under the left merge on
`parcelle_id`: one per matching yield-history row, or a single row with a null
`rendement` when the parcel has no history. -/
def mergeHistoryRow (yh : List YHRow) (d : DataRow) : List EnrichedRow :=
  let ms := yh.filter (fun y => y.parcelle_id = d.parcelle_id)
  if ms.isEmpty then
    [⟨d.parcelle_id, d.ndvi, d.stress_hydrique, d.capacite_retention_eau, none, none, none, none⟩]
  else ms.map (fun y =>
    ⟨d.parcelle_id, d.ndvi, d.stress_hydrique, d.capacite_retention_eau, y.rendement,
      none, none, none⟩)

/-- `data.merge(yield_history[["parcelle_id", "annee", "rendement"]],
how="left", on="parcelle_id")` (data_manager.py:64-68). -/
def mergeHistory (data : List DataRow) (yh : List YHRow) : List EnrichedRow :=
  data.flatMap (mergeHistoryRow yh)

/-- `groupby("parcelle_id")["rendement"].transform("mean")` evaluated for the
group of parcel `p`: the mean of the non-null `rendement` entries of the rows
of `p` (`none` when the group has no non-null entry). -/
def groupMeanRendement (rows : List EnrichedRow) (p : String) : Option ℚ :=
  let vals := (rows.filter (fun r => r.parcelle_id = p)).filterMap (fun r => r.rendement)
  if vals.isEmpty then none else some (vals.sum / vals.length)

/-- `AgriculturalDataManager._enrich_with_yield_history` (data_manager.py:62-71). -/
def enrichWithYieldHistory (data : List DataRow) (yh : List YHRow) : List EnrichedRow :=
  let mid := mergeHistory data yh
  mid.map (fun r => { r with rendement_moyen := groupMeanRendement mid r.parcelle_id })

/-- The non-null `rendement` values of the yield history of parcel `p`. -/
def historyVals (yh : List YHRow) (p : String) : List ℚ :=
  (yh.filter (fun y => y.parcelle_id = p)).filterMap (fun y => y.rendement)

/-- The historical mean yield of parcel `p`: the mean of the parcel's non-null
`rendement` entries of `yield_history` (`none` when there are none). -/
def historyMean (yh : List YHRow) (p : String) : Option ℚ :=
  let v := historyVals yh p
  if v.isEmpty then none else some (v.sum / v.length)

/-- `data["stress_hydrique"] / (data["capacite_retention_eau"] + 1e-6)`
(data_manager.py:75), per row. -/
def risqueHydriqueVal (sh cre : ℚ) : ℚ := sh / (cre + 1 / 1000000)

/-- `data["rendement_moyen"].max()` (data_manager.py:79): the column max over
the non-null entries. -/
def colMaxRendementMoyen (rows : List EnrichedRow) : Option ℚ :=
  seriesMax (rows.filterMap (fun r => r.rendement_moyen))

/-- `AgriculturalDataManager.calculate_risk_metrics` (data_manager.py:73-81) as
a state transformer: the first component is the caller's table after the call
(the two column assignments mutate it in place), the second is the returned
projection.  `risque_global` is null when `rendement_moyen` (or the column max)
is null, mirroring NaN propagation. -/
def calculateRiskMetrics (data : List EnrichedRow) : List EnrichedRow × List RiskOut :=
  let withRH := data.map (fun r =>
    { r with risque_hydrique := some (risqueHydriqueVal r.stress_hydrique r.capacite_retention_eau) })
  let mx := colMaxRendementMoyen withRH
  let withRG := withRH.map (fun r =>
    { r with risque_global :=
        match r.rendement_moyen, mx with
        | some rm, some m =>
          some (1 / 2 * r.risque_hydrique.getD 0 + 3 / 10 * (1 - r.ndvi)
            + 1 / 5 * (1 - rm / (m + 1 / 1000000)))
        | _, _ => none })
  (withRG, withRG.map (fun r => ⟨r.parcelle_id, r.risque_hydrique, r.risque_global⟩))

/-- The claim's normalizer: the max of the per-parcel historical mean yields,
over the distinct parcels of the current dataset. -/
def maxHistoryMeanOverParcels (data : List DataRow) (yh : List YHRow) : Option ℚ :=
  seriesMax (((data.map (fun d => d.parcelle_id)).dedup).filterMap (historyMean yh))

/-- A row with the risk columns removed, for stating which part of the caller's
table `calculate_risk_metrics` leaves intact. -/
def stripRiskColumns (r : EnrichedRow) : EnrichedRow :=
  { r with risque_hydrique := none, risque_global := none }

/-! ## Claim C5: `AgriculturalAnalyzer._detect_yield_breakpoints` -/

/-- `_detect_yield_breakpoints` (analyzer.py:122-130): scan
`for i in range(1, len(yield_series) - 1)` and flag `i` when
`abs(yield_series[i] - yield_series[i-1]) > np.std(yield_series)`; the
comparison is embedded squared (`npVariance` is the square of `np.std`). -/
def detectYieldBreakpoints (ys : List ℚ) : List Nat :=
  (List.range' 1 (ys.length - 2)).filter
    (fun i => (ys.getD i 0 - ys.getD (i - 1) 0) ^ 2 > npVariance ys)

/-! ## Claims C4, C7, C9, C10: `analyze_yield_patterns` and the seasonal
decomposition -/

/-- A row of `yield_history` as `analyze_yield_patterns` reads it: the parcel,
the date, and the `rendement` column built by `load_data`
(data_manager.py:34, nullable). -/
structure HistRow where
  parcelle_id : String
  date : Int
  rendement : Option ℚ
deriving DecidableEq, Inhabited

/-- The latest non-null entry at position `≤ i` (the left neighbor linear
interpolation uses). -/
def prevValid (xs : List (Option ℚ)) (i : Nat) : Option (Nat × ℚ) :=
  (List.range (i + 1)).foldl (fun acc j =>
    match xs.getD j none with
    | some v => some (j, v)
    | none => acc) none

/-- The earliest non-null entry at position `≥ i` (the right neighbor). -/
def nextValid (xs : List (Option ℚ)) (i : Nat) : Option (Nat × ℚ) :=
  (List.range' i (xs.length - i)).foldr (fun j acc =>
    match xs.getD j none with
    | some v => some (j, v)
    | none => acc) none

/-- One entry of `Series.interpolate(method="linear", limit_direction="both")`
over the positional index: interior nulls are linear between the nearest
non-null neighbors, boundary nulls copy the nearest non-null value. -/
def interpAt (xs : List (Option ℚ)) (i : Nat) : Option ℚ :=
  match xs.getD i none with
  | some v => some v
  | none =>
    match prevValid xs i, nextValid xs i with
    | some (j, a), some (k, b) => some (a + (b - a) * (((i : ℚ) - j) / ((k : ℚ) - j)))
    | some (_, a), none => some a
    | none, some (_, b) => some b
    | none, none => none

/-- `history["rendement"].interpolate(method="linear", limit_direction="both")`
(data_manager.py:99). -/
def interpolateLinearBoth (xs : List (Option ℚ)) : List (Option ℚ) :=
  (List.range xs.length).map (interpAt xs)

/-- `history["rendement"].fillna(history["rendement"].mean())`
(data_manager.py:100): a no-op on an all-null column (its mean is NaN). -/
def fillnaMean (xs : List (Option ℚ)) : List (Option ℚ) :=
  let vals := xs.filterMap id
  if vals.isEmpty then xs else xs.map (fun o => some (o.getD (vals.sum / vals.length)))

/-- The `rendement` series `analyze_yield_patterns` hands to the decomposition:
imputation runs only when the column has missing values
(data_manager.py:97-100). -/
def imputedRendement (history : List HistRow) : List (Option ℚ) :=
  let rend := history.map (fun r => r.rendement)
  if rend.any (fun o => o.isNone) then fillnaMean (interpolateLinearBoth rend) else rend

/-- The centered moving average of window 12 at position `i` (the default
two-sided convolution filter of `seasonal_decompose` for an even period:
half weight on the two endpoints of a 13-wide window). -/
def cma12 (v : List ℚ) (i : Nat) : ℚ :=
  ((v.getD (i - 6) 0 + v.getD (i + 6) 0) / 2
    + ((List.range' (i - 5) 11).map (fun k => v.getD k 0)).sum) / 12

/-- The trend component: defined where the 13-wide window fits, null at the
edges. -/
def trendMA (v : List ℚ) : List (Option ℚ) :=
  (List.range v.length).map (fun i =>
    if 6 ≤ i ∧ i + 6 < v.length then some (cma12 v i) else none)

/-- The detrended series `x - trend` (null where the trend is). -/
def detrendedSeries (v : List ℚ) : List (Option ℚ) :=
  (List.range v.length).map (fun i =>
    ((trendMA v).getD i none).map (fun t => v.getD i 0 - t))

/-- The raw period average of phase `j`: the nanmean of the detrended entries
at positions `≡ j (mod 12)`.  The `seasonal_decompose` guard (`≥ 24`
observations) makes every phase nonempty, so the `0` default is unreachable
there. -/
def periodAverage (v : List ℚ) (j : Nat) : ℚ :=
  let vals := ((detrendedSeries v).enum.filter (fun p => p.1 % 12 = j)).filterMap (fun p => p.2)
  if vals.isEmpty then 0 else vals.sum / vals.length

/-- The seasonal component at position `i`: the period average of its phase,
centered by the mean of the 12 period averages. -/
def seasonalAt (v : List ℚ) (i : Nat) : ℚ :=
  periodAverage v (i % 12) - ((List.range 12).map (periodAverage v)).sum / 12

/-- The three components of `statsmodels.tsa.seasonal.seasonal_decompose`
(additive model). -/
structure DecompResult where
  trend : List (Option ℚ)
  seasonal : List ℚ
  resid : List (Option ℚ)
deriving DecidableEq, Inhabited

/-- The additive decomposition body: `trend` the centered moving average,
`seasonal` the centered period averages, `resid = x - trend - seasonal`. -/
def additiveDecompose (v : List ℚ) : DecompResult :=
  { trend := trendMA v
    seasonal := (List.range v.length).map (seasonalAt v)
    resid := (List.range v.length).map (fun i =>
      ((trendMA v).getD i none).map (fun t => v.getD i 0 - t - seasonalAt v i)) }

/-- `seasonal_decompose(series, model="additive", period=12)`
(data_manager.py:106): rejects missing values, then demands two complete
cycles (`≥ 24` observations), then decomposes. -/
def seasonalDecompose12 (x : List (Option ℚ)) : Except String DecompResult :=
  if x.any (fun o => o.isNone) then
    .error "This function does not handle missing values"
  else if x.length < 24 then
    .error "x must have 2 complete cycles"
  else .ok (additiveDecompose (x.filterMap id))

/-- `np.polyfit(range(len(ys)), ys, 1)[0]`: the ordinary least-squares slope of
the values against their sequential index (`0` stands for the degenerate fit
on fewer than two points). -/
def polyfitSlope (ys : List ℚ) : ℚ :=
  let k := (ys.length : ℚ)
  let si := (((List.range ys.length).map (fun i => (i : ℚ)))).sum
  let sii := (((List.range ys.length).map (fun i => ((i : ℚ)) ^ 2))).sum
  let sy := ys.sum
  let siy := ((ys.enum.map (fun p => (p.1 : ℚ) * p.2))).sum
  (k * siy - si * sy) / (k * sii - si ^ 2)

/-- A value of the dict `analyze_yield_patterns` returns: a date-indexed
series, a rational scalar, or the scalar `std(resid) / mean(series)`, which is
irrational in general and therefore represented exactly by the pair
(sample variance of the residuals, mean of the series). -/
inductive PatVal where
  | series : List (Option ℚ) → PatVal
  | scalar : ℚ → PatVal
  | stdOverMean : ℚ → ℚ → PatVal
deriving DecidableEq

/-- The dict literal returned at data_manager.py:116-122: `trend`, `seasonal`,
`resid`, `slope` (fit of the non-null trend values), `variation_mean`
(`resid.std() / history["rendement"].mean()`, the mean taken over the imputed
column). -/
def patternsDict (history : List HistRow) (d : DecompResult) : List (String × PatVal) :=
  [("trend", PatVal.series d.trend),
   ("seasonal", PatVal.series (d.seasonal.map some)),
   ("resid", PatVal.series d.resid),
   ("slope", PatVal.scalar (polyfitSlope (d.trend.filterMap id))),
   ("variation_mean", PatVal.stdOverMean (sampleVariance (d.resid.filterMap id))
      (meanOfValues (imputedRendement history)))]

/-- `AgriculturalDataManager.analyze_yield_patterns` (data_manager.py:83-122):
`.ok none` is the printed no-result outcome (empty or short history), `.error`
a propagated exception (here only the `seasonal_decompose` `ValueError`),
`.ok (some dict)` the returned dict. -/
def analyzeYieldPatterns (yieldHistory : List HistRow) (pid : String) :
    Except String (Option (List (String × PatVal))) :=
  let history := yieldHistory.filter (fun r => r.parcelle_id = pid)
  if history.isEmpty then .ok none
  else if history.length < 3 then .ok none
  else
    match seasonalDecompose12 (imputedRendement history) with
    | .error e => .error e
    | .ok d => .ok (some (patternsDict history d))

/-- A concrete 24-entry yield history of parcel `"P1"` (one row per month,
no missing values), long enough for the decomposition to run. -/
def c9hist : List HistRow := (List.range 24).map (fun k => ⟨"P1", (k : Int), some ((k : ℚ))⟩)

/-- The dict `analyze_yield_patterns` returns on `c9hist`, extracted by
projection from the (successful) result. -/
def c9dict : List (String × PatVal) :=
  match analyzeYieldPatterns c9hist "P1" with
  | .ok (some d) => d
  | _ => []

/-- A concrete 24-entry series with no missing values, for witnessing the
decomposition round-trip. -/
def c7x : List (Option ℚ) := (List.range 24).map (fun k => some ((k : ℚ)))

/-- The decomposition of `c7x`. -/
def c7d : DecompResult := additiveDecompose (c7x.filterMap id)

/-!
# Theorems

One theorem per claim (with its witness or counterexample where the claim's
status calls for one), preceded by the helper lemmas the proofs share.
-/

/-- C1: every row of the fused observation table of `analyze_yield_factors`
carries `rendement = rendement_final` when the latter is non-null, else
`rendement = rendement_estime`, and no row with both null survives the
`dropna`. -/
theorem fuseObservations_rendement_resolution (combined : List CombinedRow)
    (yh : List YieldRecord) (r : FusedRow) (hr : r ∈ fuseObservations combined yh) :
    (∀ v, r.rendement_final = some v → r.rendement = some v)
    ∧ (r.rendement_final = none → r.rendement = r.rendement_estime)
    ∧ ¬(r.rendement_final = none ∧ r.rendement_estime = none) := by
  unfold fuseObservations at hr
  rw [List.mem_filter] at hr
  obtain ⟨hmem, hsome⟩ := hr
  obtain ⟨r0, -, rfl⟩ := List.mem_map.mp hmem
  obtain ⟨pid, dt, nd, est, fin, rend⟩ := r0
  rcases fin with _ | v0 <;> dsimp only [resolveRendement] at hsome ⊢
  · refine ⟨fun v hv => Option.noConfusion hv, fun _ => rfl, ?_⟩
    rintro ⟨-, h2⟩
    rw [h2] at hsome
    exact Bool.false_ne_true hsome
  · exact ⟨fun v hv => by rw [← hv], fun hv => Option.noConfusion hv,
      by rintro ⟨h1, -⟩; exact Option.noConfusion h1⟩

/-- Witness for C1 at a concrete fused table: one monitoring row of parcel
`"P1"` joined to a yield record with both `rendement_estime = 3` and
`rendement_final = 5` resolves to `rendement = 5`. -/
theorem fuseObservations_rendement_resolution_witness :
    (∀ v, (⟨"P1", 1, 1, some 3, some 5, some 5⟩ : FusedRow).rendement_final = some v →
      (⟨"P1", 1, 1, some 3, some 5, some 5⟩ : FusedRow).rendement = some v)
    ∧ ((⟨"P1", 1, 1, some 3, some 5, some 5⟩ : FusedRow).rendement_final = none →
      (⟨"P1", 1, 1, some 3, some 5, some 5⟩ : FusedRow).rendement
        = (⟨"P1", 1, 1, some 3, some 5, some 5⟩ : FusedRow).rendement_estime)
    ∧ ¬((⟨"P1", 1, 1, some 3, some 5, some 5⟩ : FusedRow).rendement_final = none
      ∧ (⟨"P1", 1, 1, some 3, some 5, some 5⟩ : FusedRow).rendement_estime = none) := by
  have hm : (⟨"P1", 1, 1, some 3, some 5, some 5⟩ : FusedRow)
      ∈ fuseObservations [⟨"P1", 1, 1⟩] [⟨"P1", 1, some 3, some 5⟩] := by
    have he : fuseObservations [⟨"P1", 1, 1⟩] [⟨"P1", 1, some 3, some 5⟩]
        = [⟨"P1", 1, 1, some 3, some 5, some 5⟩] := rfl
    rw [he]
    exact List.mem_singleton.mpr rfl
  exact fuseObservations_rendement_resolution _ _ _ hm

/-- C2: evaluated at a monitoring row dated day 5 and weather records dated
days 1 and 6, the `prepare_features` merge attaches the weather record of
day 1 (the one sharing its positional index), although the record of day 6 is
the temporally nearest one: the join runs on row positions, not dates. -/
theorem mergeAsof_positional_not_nearest_date :
    mergeAsofByPosition [⟨"P1", 5, 1⟩] [⟨1, 10⟩, ⟨6, 20⟩]
        = [⟨"P1", 5, 1, some 1, some 10⟩]
    ∧ nearestDateWeather 5 [⟨1, 10⟩, ⟨6, 20⟩] = some ⟨6, 20⟩ := ⟨rfl, rfl⟩

/-- C4: a parcel whose selected yield history has fewer than 3 rows (including
an empty selection) gets the explicit no-result outcome, not an exception. -/
theorem analyzeYieldPatterns_insufficient (yh : List HistRow) (pid : String)
    (h : (yh.filter (fun r => r.parcelle_id = pid)).length < 3) :
    analyzeYieldPatterns yh pid = .ok none := by
  unfold analyzeYieldPatterns
  dsimp only
  split
  · rfl
  · rfl

/-- Witness for C4: a parcel with exactly 2 yield records. -/
theorem analyzeYieldPatterns_insufficient_witness :
    analyzeYieldPatterns [⟨"P1", 1, some 5⟩, ⟨"P1", 2, some 7⟩] "P1" = .ok none :=
  analyzeYieldPatterns_insufficient _ _ (by decide)

/-- C5 counterexample: on the literal series `[5, 5, 5, 9, 5, 5]` the detector
flags indices 3 and 4 (std is `√(20/9) ≈ 1.49`, and both the jump to 9 and the
drop back exceed it), not index 3 alone as the claim states. -/
theorem detectYieldBreakpoints_cex :
    detectYieldBreakpoints [5, 5, 5, 9, 5, 5] = [3, 4] := by
  norm_num [detectYieldBreakpoints, npVariance, meanQ, List.range', List.filter]

/-- C5 (amended): the detector flags `i` exactly when `i` lies in
`range(1, len - 1)` — the last index is never examined — and the jump from the
previous entry exceeds one standard deviation of the series (stated squared). -/
theorem detectYieldBreakpoints_iff (ys : List ℚ) (i : Nat) :
    i ∈ detectYieldBreakpoints ys ↔
      1 ≤ i ∧ i + 2 ≤ ys.length ∧ (ys.getD i 0 - ys.getD (i - 1) 0) ^ 2 > npVariance ys := by
  unfold detectYieldBreakpoints
  rw [List.mem_filter, List.mem_range'_1]
  constructor
  · rintro ⟨⟨h1, h2⟩, h3⟩
    exact ⟨h1, by omega, of_decide_eq_true h3⟩
  · rintro ⟨h1, h2, h3⟩
    exact ⟨⟨h1, by omega⟩, decide_eq_true h3⟩

/-- C6 counterexample: calling `calculate_risk_metrics` on a one-row table
whose risk columns are absent leaves the caller's table changed (the two risk
columns have been assigned in place). -/
theorem calculateRiskMetrics_mutates_input :
    (calculateRiskMetrics [⟨"P1", 1, 1, 1, some 5, some 5, none, none⟩]).1
      ≠ [⟨"P1", 1, 1, 1, some 5, some 5, none, none⟩] := by
  intro h
  exact Bool.noConfusion
    (congrArg (fun l => ((l.getD 0 default).risque_hydrique).isSome) h)

/-- C6 (amended): `calculate_risk_metrics` adds (or overwrites) exactly the
columns `risque_hydrique` and `risque_global` on the caller's table; every
other field of every row, and the row count, are unchanged. -/
theorem calculateRiskMetrics_mutation_shape (data : List EnrichedRow) :
    ((calculateRiskMetrics data).1).map stripRiskColumns = data.map stripRiskColumns
    ∧ ((calculateRiskMetrics data).1).length = data.length := by
  constructor
  · unfold calculateRiskMetrics stripRiskColumns
    simp only [List.map_map]
    apply List.map_congr_left
    intro r _
    rfl
  · unfold calculateRiskMetrics
    simp

/-- C8 counterexample: a fused observation with `stress_hydrique = 1 ≥ 0` but
a (physically nonsensical, yet unchecked) negative retention capacity `-1`
gets a negative `risque_hydrique`. -/
theorem risqueHydrique_neg_capacity :
    (0 : ℚ) ≤ 1 ∧ risqueHydriqueVal 1 (-1) < 0 := by
  constructor
  · norm_num
  · norm_num [risqueHydriqueVal]

/-- C8 (amended): when both `stress_hydrique` and `capacite_retention_eau` are
nonnegative, `risque_hydrique` is nonnegative, and the `1e-6` term keeps the
denominator nonzero even at zero capacity. -/
theorem risqueHydrique_nonneg (sh cre : ℚ) (h1 : 0 ≤ sh) (h2 : 0 ≤ cre) :
    0 ≤ risqueHydriqueVal sh cre ∧ cre + 1 / 1000000 ≠ 0 := by
  have hpos : 0 < cre + 1 / 1000000 := add_pos_of_nonneg_of_pos h2 (by norm_num)
  exact ⟨div_nonneg h1 hpos.le, ne_of_gt hpos⟩

/-- Witness for C8 (amended) at `stress_hydrique = 3`,
`capacite_retention_eau = 0`. -/
theorem risqueHydrique_nonneg_witness :
    0 ≤ risqueHydriqueVal 3 0 ∧ (0 : ℚ) + 1 / 1000000 ≠ 0 :=
  risqueHydrique_nonneg 3 0 (by norm_num) (by norm_num)

/-- C9 (amended): whenever `analyze_yield_patterns` succeeds, the returned
dict holds exactly the five keys `trend`, `seasonal`, `resid`, `slope`,
`variation_mean` — `stability_index` and `breakpoints` are not among them. -/
theorem analyzeYieldPatterns_result_keys (yh : List HistRow) (pid : String)
    (d : List (String × PatVal)) (hd : analyzeYieldPatterns yh pid = .ok (some d)) :
    d.map Prod.fst = ["trend", "seasonal", "resid", "slope", "variation_mean"] := by
  unfold analyzeYieldPatterns at hd
  dsimp only at hd
  split at hd
  · simp at hd
  · split at hd
    · simp at hd
    · split at hd
      · simp at hd
      · rw [Except.ok.injEq, Option.some.injEq] at hd
        subst hd
        rfl

/-- Witness for C9 (amended): the keys of the dict returned on a concrete
24-month history. -/
theorem analyzeYieldPatterns_result_keys_witness :
    c9dict.map Prod.fst = ["trend", "seasonal", "resid", "slope", "variation_mean"] :=
  analyzeYieldPatterns_result_keys c9hist "P1" c9dict rfl

/-- C9 counterexample: on a concrete 24-month history the analysis succeeds
and the returned dict has no `stability_index` and no `breakpoints` entry. -/
theorem analyzeYieldPatterns_missing_keys :
    analyzeYieldPatterns c9hist "P1" = .ok (some c9dict)
    ∧ c9dict.lookup "stability_index" = none
    ∧ c9dict.lookup "breakpoints" = none :=
  ⟨rfl, rfl, rfl⟩

/-- `interpolate` preserves the series length. -/
theorem length_interpolateLinearBoth (xs : List (Option ℚ)) :
    (interpolateLinearBoth xs).length = xs.length := by
  simp [interpolateLinearBoth]

/-- `fillna` preserves the series length. -/
theorem length_fillnaMean (xs : List (Option ℚ)) : (fillnaMean xs).length = xs.length := by
  unfold fillnaMean
  dsimp only
  split
  · rfl
  · simp

/-- The imputed series has one entry per history row. -/
theorem length_imputedRendement (h : List HistRow) :
    (imputedRendement h).length = h.length := by
  unfold imputedRendement
  dsimp only
  split
  · rw [length_fillnaMean, length_interpolateLinearBoth, List.length_map]
  · rw [List.length_map]

/-- A series shorter than two full 12-cycles makes `seasonal_decompose` raise. -/
theorem seasonalDecompose12_short (x : List (Option ℚ)) (h : x.length < 24) :
    ∃ e, seasonalDecompose12 x = .error e := by
  unfold seasonalDecompose12
  split
  · exact ⟨_, rfl⟩
  · exact ⟨_, rfl⟩

/-- C10: a parcel whose yield history has between 3 and 23 rows passes the
length guards, and the period-12 decomposition then raises: the call
propagates an exception instead of returning a result or `None`. -/
theorem analyzeYieldPatterns_short_series_raises (yh : List HistRow) (pid : String)
    (h3 : 3 ≤ (yh.filter (fun r => r.parcelle_id = pid)).length)
    (h24 : (yh.filter (fun r => r.parcelle_id = pid)).length < 24) :
    ∃ e, analyzeYieldPatterns yh pid = .error e := by
  obtain ⟨e, he⟩ := seasonalDecompose12_short
    (imputedRendement (yh.filter (fun r => r.parcelle_id = pid)))
    (by rw [length_imputedRendement]; exact h24)
  refine ⟨e, ?_⟩
  have hne : ¬ ((yh.filter (fun r => r.parcelle_id = pid)).isEmpty = true) := by
    intro hE
    rw [List.isEmpty_iff_length_eq_zero] at hE
    omega
  have hn3 : ¬ ((yh.filter (fun r => r.parcelle_id = pid)).length < 3) := by omega
  unfold analyzeYieldPatterns
  dsimp only
  rw [if_neg hne, if_neg hn3, he]

/-- Witness for C10: a parcel with exactly 5 yield records raises. -/
theorem analyzeYieldPatterns_short_series_raises_witness :
    ∃ e, analyzeYieldPatterns
      [⟨"P1", 1, some 5⟩, ⟨"P1", 2, some 7⟩, ⟨"P1", 3, some 6⟩,
        ⟨"P1", 4, some 4⟩, ⟨"P1", 5, some 8⟩] "P1" = .error e :=
  analyzeYieldPatterns_short_series_raises _ _ (by decide) (by decide)

/-- Indexing a mapped range with a default. -/
theorem getD_range_map {α : Type} (f : Nat → α) (n i : Nat) (d : α) :
    ((List.range n).map f).getD i d = if i < n then f i else d := by
  rw [List.getD_eq_getElem?_getD, List.getElem?_map]
  by_cases hi : i < n
  · rw [List.getElem?_range hi, if_pos hi]
    rfl
  · rw [if_neg hi, List.getElem?_eq_none (by simpa using Nat.le_of_not_lt hi)]
    rfl

/-- Dropping the `Option` layer of a series with no missing entry preserves
its length. -/
theorem noMissing_length (x : List (Option ℚ)) (h : x.any (fun o => o.isNone) = false) :
    (x.filterMap id).length = x.length := by
  induction x with
  | nil => rfl
  | cons a tl ih =>
    rcases a with _ | v
    · simp at h
    · rw [List.any_cons, Bool.or_eq_false_iff] at h
      simp [List.filterMap_cons, ih h.2]

/-- Entry `i` of a series with no missing entry is the `i`-th of its values. -/
theorem noMissing_getD (x : List (Option ℚ)) (h : x.any (fun o => o.isNone) = false)
    (i : Nat) (hi : i < x.length) :
    x.getD i none = some ((x.filterMap id).getD i 0) := by
  induction x generalizing i with
  | nil => simp at hi
  | cons a tl ih =>
    rcases a with _ | v
    · simp at h
    · rw [List.any_cons, Bool.or_eq_false_iff] at h
      rcases i with _ | j
      · rfl
      · rw [List.getD_cons_succ]
        rw [show ((some v :: tl).filterMap id) = v :: tl.filterMap id from rfl,
          List.getD_cons_succ]
        exact ih h.2 j (by simpa using Nat.lt_of_succ_lt_succ hi)

/-- C7: wherever trend, seasonal and residual are all defined, the additive
decomposition reconstructs the input series exactly:
`trend + seasonal + resid = x`. -/
theorem decompose_roundtrip (x : List (Option ℚ)) (d : DecompResult)
    (hd : seasonalDecompose12 x = .ok d) (i : Nat) (t s r : ℚ)
    (ht : d.trend.getD i none = some t) (hs : d.seasonal.getD i 0 = s)
    (hr : d.resid.getD i none = some r) :
    x.getD i none = some (t + s + r) := by
  unfold seasonalDecompose12 at hd
  split at hd
  · exact Except.noConfusion hd
  · split at hd
    · exact Except.noConfusion hd
    · rename_i hany hlen
      rw [Except.ok.injEq] at hd
      subst hd
      dsimp only [additiveDecompose] at ht hs hr
      rw [getD_range_map] at hs hr
      unfold trendMA at ht
      rw [getD_range_map] at ht
      by_cases hi : i < (x.filterMap id).length
      · rw [if_pos hi] at ht hs hr
        by_cases hc : 6 ≤ i ∧ i + 6 < (x.filterMap id).length
        · rw [if_pos hc] at ht
          unfold trendMA at hr
          rw [getD_range_map, if_pos hi, if_pos hc] at hr
          rw [Option.some.injEq] at ht
          rw [Option.map_some', Option.some.injEq] at hr
          have hany2 : x.any (fun o => o.isNone) = false := by
            cases hEq : x.any (fun o => o.isNone)
            · rfl
            · exact absurd hEq hany
          have hx : i < x.length := by
            rw [← noMissing_length x hany2]
            exact hi
          rw [noMissing_getD x hany2 i hx, Option.some.injEq]
          rw [← ht, ← hs, ← hr]
          ring
        · rw [if_neg hc] at ht
          exact Option.noConfusion ht
      · rw [if_neg hi] at ht
        exact Option.noConfusion ht

/-- Witness for C7: the round-trip at index 6 of a concrete 24-entry series. -/
theorem decompose_roundtrip_witness :
    c7x.getD 6 none = some (((c7d.trend.getD 6 none).getD 0)
      + c7d.seasonal.getD 6 0 + ((c7d.resid.getD 6 none).getD 0)) :=
  decompose_roundtrip c7x c7d rfl 6 _ _ _ rfl rfl rfl

/-- Unfolding one step of the left merge. -/
theorem mergeHistory_cons (d : DataRow) (tl : List DataRow) (yh : List YHRow) :
    mergeHistory (d :: tl) yh = mergeHistoryRow yh d ++ mergeHistory tl yh := by
  unfold mergeHistory
  rw [List.flatMap_cons]

/-- Every row a data row produces carries that data row's parcel. -/
theorem mergeHistoryRow_pid (yh : List YHRow) (d : DataRow) (r : EnrichedRow)
    (hr : r ∈ mergeHistoryRow yh d) : r.parcelle_id = d.parcelle_id := by
  unfold mergeHistoryRow at hr
  dsimp only at hr
  split at hr
  · rw [List.mem_singleton] at hr
    subst hr
    rfl
  · obtain ⟨y, -, rfl⟩ := List.mem_map.mp hr
    rfl

/-- A data row never vanishes under the left merge. -/
theorem mergeHistoryRow_ne_nil (yh : List YHRow) (d : DataRow) :
    mergeHistoryRow yh d ≠ [] := by
  unfold mergeHistoryRow
  dsimp only
  split
  · simp
  · rename_i hne
    intro hmap
    rw [List.map_eq_nil_iff] at hmap
    exact hne (by rw [hmap]; rfl)

/-- The non-null `rendement` entries a data row contributes are exactly its
parcel's yield-history values. -/
theorem filterMap_rendement_mergeHistoryRow (yh : List YHRow) (d : DataRow) :
    (mergeHistoryRow yh d).filterMap (fun r => r.rendement)
      = historyVals yh d.parcelle_id := by
  unfold mergeHistoryRow historyVals
  dsimp only
  split
  · rename_i hEmp
    rw [List.isEmpty_iff] at hEmp
    rw [hEmp]
    rfl
  · rw [List.filterMap_map]
    rfl

/-- The per-parcel group of the merged table: each data row of parcel `p`
contributes one copy of the parcel's yield-history values (thus
`transform("mean")` over the group sees those values with a uniform
multiplicity). -/
theorem filter_mergeHistory_vals (data : List DataRow) (yh : List YHRow) (p : String) :
    ((mergeHistory data yh).filter (fun r => r.parcelle_id = p)).filterMap
        (fun r => r.rendement)
      = (List.replicate (data.countP (fun d => d.parcelle_id = p))
          (historyVals yh p)).flatten := by
  induction data with
  | nil => rfl
  | cons d tl ih =>
    rw [mergeHistory_cons, List.filter_append, List.filterMap_append, ih, List.countP_cons]
    by_cases hp : d.parcelle_id = p
    · have hfil : (mergeHistoryRow yh d).filter (fun r => r.parcelle_id = p)
          = mergeHistoryRow yh d :=
        List.filter_eq_self.mpr (fun r hr =>
          decide_eq_true (by rw [mergeHistoryRow_pid yh d r hr]; exact hp))
      rw [hfil, filterMap_rendement_mergeHistoryRow, hp,
        if_pos (by simp [hp]), List.replicate_succ, List.flatten_cons]
    · have hfil : (mergeHistoryRow yh d).filter (fun r => r.parcelle_id = p) = [] :=
        List.filter_eq_nil_iff.mpr (fun r hr => by
          simp only [decide_eq_true_eq]
          rw [mergeHistoryRow_pid yh d r hr]
          exact hp)
      rw [hfil, if_neg (by simpa using hp)]
      simp

/-- The `transform("mean")` value of a parcel that appears in the data equals
the plain mean of the parcel's yield history: uniform multiplicity cancels. -/
theorem groupMean_mergeHistory (data : List DataRow) (yh : List YHRow) (p : String)
    (hp : ∃ d ∈ data, d.parcelle_id = p) :
    groupMeanRendement (mergeHistory data yh) p = historyMean yh p := by
  unfold groupMeanRendement historyMean
  dsimp only
  rw [filter_mergeHistory_vals]
  have hkpos : 0 < data.countP (fun d => d.parcelle_id = p) :=
    List.countP_pos_iff.mpr (by
      obtain ⟨d, hd, hdp⟩ := hp
      exact ⟨d, hd, by simp [hdp]⟩)
  have hsum : ((List.replicate (data.countP (fun d => d.parcelle_id = p))
        (historyVals yh p)).flatten).sum
      = ((data.countP (fun d => d.parcelle_id = p) : ℚ)) * (historyVals yh p).sum := by
    rw [List.sum_flatten, List.map_replicate, List.sum_replicate, nsmul_eq_mul]
  have hlen : ((List.replicate (data.countP (fun d => d.parcelle_id = p))
        (historyVals yh p)).flatten).length
      = data.countP (fun d => d.parcelle_id = p) * (historyVals yh p).length := by
    rw [List.length_flatten, List.map_replicate, List.sum_replicate, smul_eq_mul]
  rcases Nat.eq_zero_or_pos (historyVals yh p).length with hL0 | hLpos
  · have hLnil : historyVals yh p = [] := List.length_eq_zero.mp hL0
    rw [if_pos (by rw [List.isEmpty_iff_length_eq_zero, hlen, hL0, Nat.mul_zero]),
      if_pos (by rw [hLnil]; rfl)]
  · have hne : ¬(((List.replicate (data.countP (fun d => d.parcelle_id = p))
          (historyVals yh p)).flatten).isEmpty = true) := by
      rw [List.isEmpty_iff_length_eq_zero, hlen]
      intro hzero
      rcases Nat.mul_eq_zero.mp hzero with hz | hz
      · omega
      · omega
    have hne2 : ¬((historyVals yh p).isEmpty = true) := by
      rw [List.isEmpty_iff_length_eq_zero]
      omega
    rw [if_neg hne, if_neg hne2, hsum, hlen]
    congr 1
    push_cast
    rw [mul_div_mul_left]
    exact_mod_cast hkpos.ne'

/-- Every merged row descends from a data row of the same parcel. -/
theorem mem_mergeHistory_pid (data : List DataRow) (yh : List YHRow) (r : EnrichedRow)
    (hr : r ∈ mergeHistory data yh) : ∃ d ∈ data, d.parcelle_id = r.parcelle_id := by
  unfold mergeHistory at hr
  obtain ⟨d, hd, hrd⟩ := List.mem_flatMap.mp hr
  exact ⟨d, hd, (mergeHistoryRow_pid yh d r hrd).symm⟩

/-- Conversely, every data row leaves at least one merged row of its parcel. -/
theorem exists_mergeHistory_row (data : List DataRow) (yh : List YHRow) (d : DataRow)
    (hd : d ∈ data) : ∃ r ∈ mergeHistory data yh, r.parcelle_id = d.parcelle_id := by
  obtain ⟨r, hr⟩ := List.exists_mem_of_ne_nil _ (mergeHistoryRow_ne_nil yh d)
  exact ⟨r, List.mem_flatMap.mpr ⟨d, hd, hr⟩, mergeHistoryRow_pid yh d r hr⟩

/-- A fold of `max` is bounded exactly when the seed and every element are. -/
theorem foldl_max_le_iff (xs : List ℚ) (a c : ℚ) :
    xs.foldl max a ≤ c ↔ a ≤ c ∧ ∀ b ∈ xs, b ≤ c := by
  induction xs generalizing a with
  | nil => simp
  | cons x tl ih =>
    rw [List.foldl_cons, ih, max_le_iff, List.forall_mem_cons]
    exact and_assoc

/-- A fold of `max` returns its seed or one of the elements. -/
theorem foldl_max_mem (xs : List ℚ) (a : ℚ) :
    xs.foldl max a = a ∨ xs.foldl max a ∈ xs := by
  induction xs generalizing a with
  | nil => exact Or.inl rfl
  | cons x tl ih =>
    rw [List.foldl_cons]
    rcases ih (max a x) with h | h
    · rcases max_choice a x with hm | hm
      · exact Or.inl (by rw [h, hm])
      · exact Or.inr (by rw [h, hm]; exact List.mem_cons_self x tl)
    · exact Or.inr (List.mem_cons_of_mem x h)

/-- Two lists with the same members have the same max. -/
theorem seriesMax_congr (l1 l2 : List ℚ) (h : ∀ a : ℚ, a ∈ l1 ↔ a ∈ l2) :
    seriesMax l1 = seriesMax l2 := by
  have key : ∀ (b : ℚ) (bs : List ℚ) (z : ℚ), z ∈ b :: bs → z ≤ bs.foldl max b := by
    intro b bs z hz
    have hh := (foldl_max_le_iff bs b (bs.foldl max b)).mp (le_refl _)
    rcases List.mem_cons.mp hz with rfl | hz2
    · exact hh.1
    · exact hh.2 z hz2
  have kmem : ∀ (b : ℚ) (bs : List ℚ), bs.foldl max b ∈ b :: bs := by
    intro b bs
    rcases foldl_max_mem bs b with h2 | h2
    · rw [h2]
      exact List.mem_cons_self b bs
    · exact List.mem_cons_of_mem b h2
  cases l1 with
  | nil =>
    cases l2 with
    | nil => rfl
    | cons y ys => exact absurd ((h y).mpr (List.mem_cons_self y ys)) (List.not_mem_nil y)
  | cons x xs =>
    cases l2 with
    | nil => exact absurd ((h x).mp (List.mem_cons_self x xs)) (List.not_mem_nil x)
    | cons y ys =>
      unfold seriesMax
      rw [Option.some.injEq]
      exact le_antisymm
        (key y ys _ ((h _).mp (kmem x xs)))
        (key x xs _ ((h _).mpr (kmem y ys)))

/-- The `rendement_moyen` column of the enriched table holds, row by row, the
historical mean of the row's parcel. -/
theorem filterMap_rm_enrich (data : List DataRow) (yh : List YHRow) :
    (enrichWithYieldHistory data yh).filterMap (fun r => r.rendement_moyen)
      = (mergeHistory data yh).filterMap (fun r => historyMean yh r.parcelle_id) := by
  unfold enrichWithYieldHistory
  dsimp only
  rw [List.filterMap_map]
  exact List.filterMap_congr (fun r hr => by
    obtain ⟨d, hd, hdp⟩ := mem_mergeHistory_pid data yh r hr
    exact groupMean_mergeHistory data yh r.parcelle_id ⟨d, hd, hdp⟩)

/-- Reassigning risk columns does not move the column max of
`rendement_moyen`. -/
theorem colMax_map_preserve (rows : List EnrichedRow) (f : EnrichedRow → EnrichedRow)
    (hf : ∀ r, (f r).rendement_moyen = r.rendement_moyen) :
    colMaxRendementMoyen (rows.map f) = colMaxRendementMoyen rows := by
  unfold colMaxRendementMoyen
  rw [List.filterMap_map]
  exact congrArg seriesMax (List.filterMap_congr (fun r _ => hf r))

/-- The column max of `rendement_moyen` over the enriched table is the max of
the per-parcel historical means over the distinct parcels of the dataset. -/
theorem colMax_enriched (data : List DataRow) (yh : List YHRow) :
    colMaxRendementMoyen (enrichWithYieldHistory data yh)
      = maxHistoryMeanOverParcels data yh := by
  unfold colMaxRendementMoyen maxHistoryMeanOverParcels
  rw [show (enrichWithYieldHistory data yh).filterMap (fun r => r.rendement_moyen)
      = (mergeHistory data yh).filterMap (fun r => historyMean yh r.parcelle_id)
    from filterMap_rm_enrich data yh]
  apply seriesMax_congr
  intro a
  constructor
  · intro ha
    obtain ⟨r, hr, hra⟩ := List.mem_filterMap.mp ha
    obtain ⟨d, hd, hdp⟩ := mem_mergeHistory_pid data yh r hr
    exact List.mem_filterMap.mpr ⟨r.parcelle_id,
      List.mem_dedup.mpr (List.mem_map.mpr ⟨d, hd, hdp⟩), hra⟩
  · intro ha
    obtain ⟨q, hq, hqa⟩ := List.mem_filterMap.mp ha
    obtain ⟨d, hd, hdq⟩ := List.mem_map.mp (List.mem_dedup.mp hq)
    obtain ⟨r, hrmem, hrp⟩ := exists_mergeHistory_row data yh d hd
    refine List.mem_filterMap.mpr ⟨r, hrmem, ?_⟩
    rw [hrp, hdq]
    exact hqa

/-- In-range `getD` of a mapped list. -/
theorem getD_map_lt {α β : Type} [Inhabited α] [Inhabited β] (f : α → β) (l : List α)
    (i : Nat) (hi : i < l.length) :
    (l.map f).getD i default = f (l.getD i default) := by
  rw [List.getD_eq_getElem?_getD, List.getElem?_map, List.getElem?_eq_getElem hi,
    List.getD_eq_getElem?_getD, List.getElem?_eq_getElem hi]
  rfl

/-- In-range `getD` is a member. -/
theorem getD_mem {α : Type} [Inhabited α] (l : List α) (i : Nat) (hi : i < l.length) :
    l.getD i default ∈ l := by
  rw [List.getD_eq_getElem?_getD, List.getElem?_eq_getElem hi]
  exact List.getElem_mem hi

/-- Each enriched row's `rendement_moyen` is its parcel's historical mean. -/
theorem enriched_rendement_moyen (data : List DataRow) (yh : List YHRow)
    (e : EnrichedRow) (he : e ∈ enrichWithYieldHistory data yh) :
    e.rendement_moyen = historyMean yh e.parcelle_id := by
  unfold enrichWithYieldHistory at he
  dsimp only at he
  obtain ⟨r0, hr0, rfl⟩ := List.mem_map.mp he
  obtain ⟨d, hd, hdp⟩ := mem_mergeHistory_pid data yh r0 hr0
  exact groupMean_mergeHistory data yh r0.parcelle_id ⟨d, hd, hdp⟩

/-- Row `i` of the table `calculate_risk_metrics` returns, in closed form. -/
theorem calcRisk_out_getD (rows : List EnrichedRow) (i : Nat) (hi : i < rows.length) :
    ((calculateRiskMetrics rows).2).getD i default
      = { parcelle_id := (rows.getD i default).parcelle_id,
          risque_hydrique := some (risqueHydriqueVal (rows.getD i default).stress_hydrique
            (rows.getD i default).capacite_retention_eau),
          risque_global :=
            match (rows.getD i default).rendement_moyen, colMaxRendementMoyen rows with
            | some rm, some m =>
              some (1 / 2 * risqueHydriqueVal (rows.getD i default).stress_hydrique
                    (rows.getD i default).capacite_retention_eau
                + 3 / 10 * (1 - (rows.getD i default).ndvi)
                + 1 / 5 * (1 - rm / (m + 1 / 1000000)))
            | _, _ => none } := by
  unfold calculateRiskMetrics
  dsimp only
  rw [getD_map_lt _ _ i (by simpa using hi), getD_map_lt _ _ i (by simpa using hi),
    getD_map_lt _ _ i hi]
  rw [colMax_map_preserve rows (fun r =>
    { r with risque_hydrique := some (risqueHydriqueVal r.stress_hydrique
        r.capacite_retention_eau) }) (fun r => rfl)]
  rfl

/-- C3: for every row of the enriched table, the computed global risk is
`0.5 · risque_hydrique + 0.3 · (1 − ndvi) + 0.2 · (1 − rendement_moyen /
(max rendement_moyen + 1e-6))`, where `rendement_moyen` is the row's parcel's
historical mean yield and the max runs over the distinct parcels of the
dataset. -/
theorem calculateRiskMetrics_risque_global_formula
    (data : List DataRow) (yh : List YHRow) (i : Nat)
    (hi : i < (enrichWithYieldHistory data yh).length) (rm mx : ℚ)
    (hrm : historyMean yh
        ((enrichWithYieldHistory data yh).getD i default).parcelle_id = some rm)
    (hmx : maxHistoryMeanOverParcels data yh = some mx) :
    ((calculateRiskMetrics (enrichWithYieldHistory data yh)).2.getD i
        default).risque_global
      = some (1 / 2 * ((calculateRiskMetrics (enrichWithYieldHistory data yh)).2.getD i
            default).risque_hydrique.getD 0
        + 3 / 10 * (1 - ((enrichWithYieldHistory data yh).getD i default).ndvi)
        + 1 / 5 * (1 - rm / (mx + 1 / 1000000))) := by
  have hrm2 : ((enrichWithYieldHistory data yh).getD i default).rendement_moyen
      = some rm := by
    rw [enriched_rendement_moyen data yh _ (getD_mem _ i hi)]
    exact hrm
  have hcol : colMaxRendementMoyen (enrichWithYieldHistory data yh) = some mx := by
    rw [colMax_enriched]
    exact hmx
  rw [calcRisk_out_getD _ i hi, hrm2, hcol]
  rfl

/-- Witness for C3: one parcel, `ndvi = 1`, `stress_hydrique = 1`,
`capacite_retention_eau = 1`, one historical yield of 10 (so the parcel mean
and the global max are both 10). -/
theorem calculateRiskMetrics_risque_global_formula_witness :
    ((calculateRiskMetrics (enrichWithYieldHistory [⟨"P1", 1, 1, 1⟩]
        [⟨"P1", 2020, some 10⟩])).2.getD 0 default).risque_global
      = some (1 / 2 * ((calculateRiskMetrics (enrichWithYieldHistory [⟨"P1", 1, 1, 1⟩]
            [⟨"P1", 2020, some 10⟩])).2.getD 0 default).risque_hydrique.getD 0
        + 3 / 10 * (1 - ((enrichWithYieldHistory [⟨"P1", 1, 1, 1⟩]
            [⟨"P1", 2020, some 10⟩]).getD 0 default).ndvi)
        + 1 / 5 * (1 - 10 / (10 + 1 / 1000000))) :=
  calculateRiskMetrics_risque_global_formula [⟨"P1", 1, 1, 1⟩] [⟨"P1", 2020, some 10⟩] 0
    (by decide) 10 10
    (by norm_num [historyMean, historyVals, enrichWithYieldHistory, mergeHistory,
      mergeHistoryRow, groupMeanRendement, List.filter, List.filterMap])
    (by norm_num [maxHistoryMeanOverParcels, historyMean, historyVals, seriesMax,
      List.filter, List.filterMap, List.dedup])
